import Mathlib

/-!
Verification development for the sparse-matrix kernel in `src/sparse.c`.

Representation (from `sparse.h` / `sparse.c`): a sparse matrix is a buffer of
`elem_t` records `{int i; int j; double value;}`.  Slot 0 is the header:
`i` = rows, `j` = cols, `value` = number of stored entries (by the calling
convention, the caller stores the buffer capacity in `value` before an
operation fills the matrix).  Entries live in slots `1 .. count`.

The embedding models a buffer as a total function `Nat → Elem` (C memory
beyond the populated region holds arbitrary values, which several loops of
the source actually read), doubles as exact rationals, and the C cast
`(int) x` as truncation toward zero.  Null-pointer checks of the source are
not representable and are dropped; every other test, loop bound and write of
the C functions is translated line by line.
-/

set_option maxRecDepth 4000

/-- The `elem_t` record of sparse.h: row index `i`, column index `j`, `value`. -/
structure Elem where
  i : Int
  j : Int
  value : ℚ
deriving DecidableEq

/-- A sparse-matrix buffer: slot 0 is the header, slots 1.. are entries. -/
def Buf : Type := Nat → Elem

/-- A dense buffer of doubles, addressed by pointer offset from its base. -/
def DenseBuf : Type := Int → ℚ

/-- INFVALUE from sparse.h: numbers below this value are considered 0. -/
def INFVALUE : ℚ := 1 / 1000

/-- The C cast `(int) x` of a double: truncation toward zero. -/
def tr (q : ℚ) : Int := q.num.tdiv (q.den : Int)

/-- Truncation clamped at zero, used for loop bounds `k < (int) x`:
a non-positive C bound yields zero iterations. -/
def trN (q : ℚ) : Nat := (tr q).toNat

/-- Write a whole `elem_t` at slot `k` of a buffer. -/
def setSlot (b : Buf) (k : Nat) (e : Elem) : Buf := fun n => if n = k then e else b n

/-- Write only the `value` field at slot `k` of a buffer. -/
def setVal (b : Buf) (k : Nat) (v : ℚ) : Buf :=
  fun n => if n = k then ⟨(b k).i, (b k).j, v⟩ else b n

/-- Write one double in a dense buffer. -/
def setD (d : DenseBuf) (k : Int) (v : ℚ) : DenseBuf := fun n => if n = k then v else d n

/-- generateSparse (sparse.c lines 23-64).  Writes the header `(m, n, m*n)`,
scans the dense input in row-major order keeping elements with
`value >= INFVALUE`, then performs the two defensive count checks of the
source (the second one reads the `value` field it itself set to `m*n`, so it
compares `nnz` against `m*n`, not against the caller's capacity), and finally
stores the discovered count. -/
def generateSparse (out : Buf) (inp : DenseBuf) (m n : Int) : Option Buf :=
  if m = 0 ∨ n = 0 then none else
  let out1 := setSlot out 0 ⟨m, n, ((m * n : Int) : ℚ)⟩
  let res := (List.range m.toNat).foldl (fun st i =>
    (List.range n.toNat).foldl (fun (st : Buf × Nat) j =>
      if inp ((j : Int) + (i : Int) * n) ≥ INFVALUE then
        (setSlot st.1 (st.2 + 1) ⟨(i : Int), (j : Int), inp ((j : Int) + (i : Int) * n)⟩,
         st.2 + 1)
      else st) st) (out1, (0 : Nat))
  if (res.2 : Int) > m * n then none
  else if (res.2 : Int) > tr ((res.1 0).value) then none
  else some (setVal res.1 0 ((res.2 : ℚ)))

/-- The linear search of multiplySparse (lines 117-129): among the first
`nout` output entries, find one whose coordinates are `(i, c)` — note the
source compares the column against the scan index `c`, and this model keeps
that comparison exactly as written. -/
def mulFind (out : Buf) (nout : Nat) (i c : Int) : Option Nat :=
  (List.range nout).find? fun h => ((out (h + 1)).i == i) && ((out (h + 1)).j == c)

/-- One iteration of the inner accumulation loop of multiplySparse
(lines 113-137): `ce.1` is the loop index `c`, `ce.2` the position `pos[c]`
of the matching entry of `in2`. -/
def mulInner (in2 : Buf) (i : Int) (value1 : ℚ) (st : Buf × Nat) (ce : Nat × Nat) :
    Buf × Nat :=
  let value2 := (in2 (ce.2 + 1)).value
  match mulFind st.1 st.2 i (ce.1 : Int) with
  | some h => (setVal st.1 (h + 1) ((st.1 (h + 1)).value + value1 * value2), st.2)
  | none => (setSlot st.1 (st.2 + 1) ⟨i, (ce.1 : Int), value1 * value2⟩, st.2 + 1)

/-- One iteration of the outer loop of multiplySparse (lines 97-139): take
entry `k` of `in1`, collect the positions of the entries of `in2` whose row
equals its column, and run the accumulation loop over them. -/
def mulOuter (in1 in2 : Buf) (st : Buf × Nat) (k : Nat) : Buf × Nat :=
  let curr1 := in1 (k + 1)
  let pos := (List.range (trN (in2 0).value)).filter fun h => (in2 (h + 1)).i == curr1.j
  pos.enum.foldl (mulInner in2 curr1.i curr1.value) st

/-- multiplySparse (sparse.c lines 75-159).  Fails when `in1->i != in2->j`;
otherwise runs the accumulation loops and stores the new count.  The
near-zero bookkeeping of lines 144-151 only fills a local array and the
deletion loop of lines 152-157 is commented out in the source, so neither
has any effect on `out`; the function never reads a capacity. -/
def multiplySparse (out in1 in2 : Buf) : Option Buf :=
  if (in1 0).i ≠ (in2 0).j then none
  else
    let res := (List.range (trN (in1 0).value)).foldl (mulOuter in1 in2) (out, (0 : Nat))
    some (setVal res.1 0 ((res.2 : ℚ)))

/-- copySparse (sparse.c lines 235-250).  Fails when `out->value < in->value`
(capacity versus count by the calling convention); otherwise copies slots
`1 .. (int) in->value + 1` — the entries plus one slot past them — and never
touches the header slot of `out`. -/
def copySparse (out inp : Buf) : Option Buf :=
  if (out 0).value < (inp 0).value then none
  else some ((List.range (tr (inp 0).value + 1).toNat).foldl
    (fun o k => setSlot o (k + 1) (inp (k + 1))) out)

/-- deleteElementSparse (sparse.c lines 325-344): overwrite entry `pos` with
the buffer slot at index `nnz` and decrement the stored count. -/
def deleteElementSparse (matrix : Buf) (pos : Nat) : Option Buf :=
  let nnz := tr (matrix 0).value
  if (pos : Int) > nnz then none
  else
    let m1 := setSlot matrix (pos + 1) (matrix nnz.toNat)
    some (setVal m1 0 ((nnz - 1 : Int) : ℚ))

/-- The linear search of addSparse (lines 194-203): among the first `nout`
output entries, find one whose coordinates match those of `e`. -/
def addFind (out : Buf) (nout : Nat) (e : Elem) : Option Nat :=
  (List.range nout).find? fun l => ((out (l + 1)).i == e.i) && ((out (l + 1)).j == e.j)

/-- One iteration of the merge loop of addSparse (lines 188-212). -/
def addMerge (in2 : Buf) (st : Buf × Nat) (k : Nat) : Buf × Nat :=
  let curr := in2 (k + 1)
  match addFind st.1 st.2 curr with
  | some l => (setVal st.1 (l + 1) ((st.1 (l + 1)).value + curr.value), st.2)
  | none => (setSlot st.1 (st.2 + 1) curr, st.2 + 1)

/-- One iteration of the prune loop of addSparse (lines 217-222): the signed
comparison `value < INFVALUE` of the source, and the ignored return value of
deleteElementSparse, are kept as written. -/
def addPruneStep (out : Buf) (k : Nat) : Buf :=
  if (out (k + 1)).value < INFVALUE then (deleteElementSparse out k).getD out else out

/-- addSparse (sparse.c lines 170-225).  The compatibility test fails only
when BOTH dimensions differ (the `&&` of line 173 is kept as written); then
`in1` is copied into `out`, the entries of `in2` are merged, the new count is
stored, and the prune loop runs with its bound fixed at the pre-prune count. -/
def addSparse (out in1 in2 : Buf) : Option Buf :=
  if (in1 0).i ≠ (in2 0).i ∧ (in1 0).j ≠ (in2 0).j then none
  else match copySparse out in1 with
    | none => none
    | some out1 =>
      let res := (List.range (trN (in2 0).value)).foldl (addMerge in2)
        (out1, trN (in1 0).value)
      let out2 := setVal res.1 0 ((res.2 : ℚ))
      some ((List.range res.2).foldl addPruneStep out2)

/-- fullSparse (sparse.c lines 262-287).  Reads `in_n` from the header field
`i` and `in_m` from the header field `j` (as the source does), fails when
`m != in_m || n != in_n`, zero-fills `m*n` doubles, then scatters the slots
`1 .. (int) in->value + 1` — one slot past the entries — to offset
`curr.i * in_n + curr.j`. -/
def fullSparse (out : DenseBuf) (m n : Int) (inp : Buf) : Option DenseBuf :=
  let in_n := (inp 0).i
  let in_m := (inp 0).j
  let in_nnz := tr (inp 0).value
  if m ≠ in_m ∨ n ≠ in_n then none
  else
    let z := (List.range (m * n).toNat).foldl (fun d k => setD d (k : Int) 0) out
    some ((List.range (in_nnz + 1).toNat).foldl
      (fun d k => setD d ((inp (k + 1)).i * in_n + (inp (k + 1)).j) (inp (k + 1)).value) z)

/-- Swap the two index fields of an `elem_t`. -/
def swapE (e : Elem) : Elem := ⟨e.j, e.i, e.value⟩

/-- transposeSparse (sparse.c lines 296-315): swaps `i` and `j` in the slots
`0 .. (int) matrix->value` — the header and every stored entry.  The only
failure of the source is a null pointer, which the model cannot express. -/
def transposeSparse (matrix : Buf) : Buf :=
  (List.range (tr (matrix 0).value + 1).toNat).foldl
    (fun mx k => setSlot mx k (swapE (mx k))) matrix

/-- A scratch destination buffer whose header holds zeros (capacity 0). -/
def outZ : Buf := fun _ => ⟨0, 0, 0⟩

/-- Sparse form of the spec example `A = [[1,0,2],[0,3,0]]` (2 rows, 3 cols):
entries `(0,0)=1`, `(0,2)=2`, `(1,1)=3`. -/
def specA : Buf := fun k =>
  if k = 0 then ⟨2, 3, 3⟩ else if k = 1 then ⟨0, 0, 1⟩
  else if k = 2 then ⟨0, 2, 2⟩ else if k = 3 then ⟨1, 1, 3⟩ else ⟨0, 0, 0⟩

/-- Sparse form of the spec example `B = [[1,0],[0,1],[1,1]]` (3 rows, 2 cols):
entries `(0,0)=1`, `(1,1)=1`, `(2,0)=1`, `(2,1)=1`. -/
def specB : Buf := fun k =>
  if k = 0 then ⟨3, 2, 4⟩ else if k = 1 then ⟨0, 0, 1⟩
  else if k = 2 then ⟨1, 1, 1⟩ else if k = 3 then ⟨2, 0, 1⟩
  else if k = 4 then ⟨2, 1, 1⟩ else ⟨0, 0, 0⟩

/-- A 1-by-1 sparse matrix holding the single entry `(0,0) = 5`. -/
def addA : Buf := fun k =>
  if k = 0 then ⟨1, 1, 1⟩ else if k = 1 then ⟨0, 0, 5⟩ else ⟨0, 0, 0⟩

/-- A 1-by-1 sparse matrix holding the single entry `(0,0) = -7`. -/
def addB : Buf := fun k =>
  if k = 0 then ⟨1, 1, 1⟩ else if k = 1 then ⟨0, 0, -7⟩ else ⟨0, 0, 0⟩

/-- A destination buffer with declared capacity 9. -/
def addO : Buf := fun _ => ⟨0, 0, 9⟩

/-- The 1-by-2 dense matrix `[[5, 7]]` laid out row-major. -/
def d3 : DenseBuf := fun k => if k = 0 then 5 else if k = 1 then 7 else 0

/-- An all-zero dense buffer. -/
def denseZ : DenseBuf := fun _ => 0

/-- A 1-by-1 sparse matrix holding the single entry `(0,0) = 1/32`. -/
def tinyA : Buf := fun k =>
  if k = 0 then ⟨1, 1, 1⟩ else if k = 1 then ⟨0, 0, 1/32⟩ else ⟨0, 0, 0⟩

/-- An empty sparse matrix with 2 rows and 3 cols. -/
def m6a : Buf := fun k => if k = 0 then ⟨2, 3, 0⟩ else ⟨0, 0, 0⟩

/-- An empty sparse matrix with 3 rows and 5 cols. -/
def m6b : Buf := fun k => if k = 0 then ⟨3, 5, 0⟩ else ⟨0, 0, 0⟩

/-- An empty sparse matrix with 2 rows and 5 cols. -/
def b6 : Buf := fun k => if k = 0 then ⟨2, 5, 0⟩ else ⟨0, 0, 0⟩

/-- A destination buffer with declared capacity 1. -/
def cap1 : Buf := fun _ => ⟨0, 0, 1⟩

/-- A 2-by-3 sparse matrix with one entry `(0,1) = 5` (the slots past the
count also hold that record, as C memory may). -/
def cIn : Buf := fun k => if k = 0 then ⟨2, 3, 1⟩ else ⟨0, 1, 5⟩

/-- A destination buffer whose header holds rows 9, cols 9, capacity 4. -/
def cOut : Buf := fun _ => ⟨9, 9, 4⟩

/-- A 2-by-3 sparse matrix with one entry, used as a transpose witness. -/
def transW : Buf := fun k => if k = 0 then ⟨2, 3, 1⟩ else ⟨0, 1, 5⟩

theorem setSlot_apply_ne (b : Buf) (k n : Nat) (e : Elem) (h : n ≠ k) :
    setSlot b k e n = b n := by
  unfold setSlot
  exact if_neg h

theorem setVal_apply_ne (b : Buf) (k n : Nat) (v : ℚ) (h : n ≠ k) :
    setVal b k v n = b n := by
  unfold setVal
  exact if_neg h

theorem mulInner_fst_zero (in2 : Buf) (i : Int) (v1 : ℚ) (st : Buf × Nat)
    (ce : Nat × Nat) : (mulInner in2 i v1 st ce).1 0 = st.1 0 := by
  unfold mulInner
  cases hm : mulFind st.1 st.2 i (ce.1 : Int) with
  | none => simpa using setSlot_apply_ne st.1 (st.2 + 1) 0 _ (by omega)
  | some h => simpa [hm] using setVal_apply_ne st.1 (h + 1) 0 _ (by omega)

theorem foldl_mulInner_fst_zero (in2 : Buf) (i : Int) (v1 : ℚ)
    (l : List (Nat × Nat)) :
    ∀ st : Buf × Nat, (l.foldl (mulInner in2 i v1) st).1 0 = st.1 0 := by
  induction l with
  | nil => intro st; rfl
  | cons ce l ih =>
    intro st
    rw [List.foldl_cons, ih]
    exact mulInner_fst_zero in2 i v1 st ce

theorem mulOuter_fst_zero (in1 in2 : Buf) (st : Buf × Nat) (k : Nat) :
    (mulOuter in1 in2 st k).1 0 = st.1 0 := by
  unfold mulOuter
  exact foldl_mulInner_fst_zero in2 _ _ _ st

theorem foldl_mulOuter_fst_zero (in1 in2 : Buf) (l : List Nat) :
    ∀ st : Buf × Nat, (l.foldl (mulOuter in1 in2) st).1 0 = st.1 0 := by
  induction l with
  | nil => intro st; rfl
  | cons k l ih =>
    intro st
    rw [List.foldl_cons, ih]
    exact mulOuter_fst_zero in1 in2 st k

theorem swapE_swapE (e : Elem) : swapE (swapE e) = e := rfl

theorem transFold (M : Buf) :
    ∀ B : Nat, (List.range B).foldl (fun mx k => setSlot mx k (swapE (mx k))) M
      = fun k => if k < B then swapE (M k) else M k := by
  intro B
  induction B with
  | zero => funext k; simp
  | succ B ih =>
    rw [List.range_succ, List.foldl_append, ih]
    funext k
    simp only [List.foldl_cons, List.foldl_nil]
    unfold setSlot
    by_cases hk : k = B
    · subst hk
      simp [lt_irrefl, Nat.lt_succ_self]
    · rw [if_neg hk]
      dsimp only
      by_cases hlt : k < B
      · rw [if_pos hlt, if_pos (by omega)]
      · rw [if_neg hlt, if_neg (by omega)]

theorem transposeSparse_apply (M : Buf) :
    transposeSparse M
      = fun k => if k < (tr (M 0).value + 1).toNat then swapE (M k) else M k := by
  unfold transposeSparse
  exact transFold M _

theorem transposeSparse_value0 (M : Buf) :
    ((transposeSparse M) 0).value = (M 0).value := by
  rw [transposeSparse_apply]
  by_cases h : 0 < (tr (M 0).value + 1).toNat
  · simp [h, swapE]
  · simp [h]

theorem copyFold (out inp : Buf) :
    ∀ B : Nat, (List.range B).foldl (fun o k => setSlot o (k + 1) (inp (k + 1))) out
      = fun s => if 1 ≤ s ∧ s ≤ B then inp s else out s := by
  intro B
  induction B with
  | zero => funext s; rw [List.range_zero, List.foldl_nil, if_neg (by omega)]
  | succ B ih =>
    rw [List.range_succ, List.foldl_append, ih]
    funext s
    simp only [List.foldl_cons, List.foldl_nil]
    unfold setSlot
    by_cases hs : s = B + 1
    · subst hs
      simp
    · rw [if_neg hs]
      dsimp only
      by_cases hin : 1 ≤ s ∧ s ≤ B
      · rw [if_pos hin, if_pos (by omega)]
      · rw [if_neg hin, if_neg (by omega)]

theorem transposeSparse_apply_at (M : Buf) (k : Nat) :
    transposeSparse M k
      = if k < (tr (M 0).value + 1).toNat then swapE (M k) else M k := by
  rw [transposeSparse_apply]

theorem copyFold_at (out inp : Buf) (B s : Nat) :
    (List.range B).foldl (fun o k => setSlot o (k + 1) (inp (k + 1))) out s
      = if 1 ≤ s ∧ s ≤ B then inp s else out s := by
  rw [copyFold]

/-- C1: evaluation of multiplySparse on the spec example `A=[[1,0,2],[0,3,0]]`,
`B=[[1,0],[0,1],[1,1]]`.  The call succeeds with the three entries
`(0,0)=3`, `(0,1)=2` and `(1,0)=3`, whereas the true product is
`[[3,2],[0,3]]`: the entry worth 3 belongs at `(1,1)`, not `(1,0)`, because
line 123/132 of sparse.c uses the scan index `c` as the output column. -/
theorem multiplySparse_spec_example_eval :
    (multiplySparse outZ specA specB).isSome = true
    ∧ (((multiplySparse outZ specA specB).getD outZ) 0).value = 3
    ∧ ((multiplySparse outZ specA specB).getD outZ) 1 = ⟨0, 0, 3⟩
    ∧ ((multiplySparse outZ specA specB).getD outZ) 2 = ⟨0, 1, 2⟩
    ∧ ((multiplySparse outZ specA specB).getD outZ) 3 = ⟨1, 0, 3⟩ := by
  with_unfolding_all decide

/-- C2: evaluation of addSparse on the 1-by-1 matrices `[[5]]` and `[[-7]]`.
The call succeeds but the result count is 0: the merged entry `(0,0) = -2`
is deleted by the prune loop's signed comparison `value < INFVALUE`
(line 219 of sparse.c), although `|5 + (-7)| = 2` is far above the
threshold, so the result is not `A + B`. -/
theorem addSparse_negative_sum_eval :
    (addSparse addO addA addB).isSome = true
    ∧ (((addSparse addO addA addB).getD addO) 0).value = 0
    ∧ (5 : ℚ) + (-7) = -2
    ∧ INFVALUE ≤ |(-2 : ℚ)| := by with_unfolding_all decide

/-- C3: evaluation of the round trip on the 1-by-2 dense matrix `[[5,7]]`.
generateSparse succeeds, but fullSparse with the original dimensions 1 and 2
fails, because line 270 of sparse.c compares the passed row count with the
stored column count and vice versa; the round trip therefore reconstructs
nothing for any non-square matrix. -/
theorem roundTrip_one_by_two_eval :
    (generateSparse outZ d3 1 2).isSome = true
    ∧ (fullSparse denseZ 1 2 ((generateSparse outZ d3 1 2).getD outZ)).isSome = false := by
  with_unfolding_all decide

/-- C4: evaluation of multiplySparse on two copies of the 1-by-1 matrix with
the single entry `1/32`.  The call succeeds and the result stores the entry
`(0,0) = 1/1024`, whose magnitude is below INFVALUE: the deletion of
near-zero output entries (lines 152-157 of sparse.c) is commented out, so
multiplySparse never removes them. -/
theorem multiplySparse_subepsilon_entry_eval :
    (multiplySparse outZ tinyA tinyA).isSome = true
    ∧ (((multiplySparse outZ tinyA tinyA).getD outZ) 0).value = 1
    ∧ ((multiplySparse outZ tinyA tinyA).getD outZ) 1 = ⟨0, 0, 1/1024⟩
    ∧ |(1 : ℚ)/1024| < INFVALUE := by with_unfolding_all decide

/-- C5 counterexample: copySparse from a 2-by-3 matrix (header `(2,3,1)`)
into a buffer whose header is `(9,9,4)` succeeds, yet the destination header
still reads `(9,9,4)` afterwards — the source never copies the header, so
the claimed deep copy of rows, cols and count fails at this input. -/
theorem copySparse_header_counterexample :
    (copySparse cOut cIn).isSome = true
    ∧ ((copySparse cOut cIn).getD cOut) 0 = ⟨9, 9, 4⟩
    ∧ cIn 0 = ⟨2, 3, 1⟩
    ∧ ((copySparse cOut cIn).getD cOut) 0 ≠ cIn 0 := by with_unfolding_all decide

/-- C5 (amended): copySparse fails exactly when the value field of out's
header (the capacity, by the calling convention) is smaller than the value
field of in's header (the entry count); on success it copies in's slots
`1 .. (int) count + 1` — all stored entries plus the slot after them — into
the same slots of out and leaves out's header slot entirely unchanged. -/
theorem copySparse_amended (out inp : Buf) :
    ((out 0).value < (inp 0).value → copySparse out inp = none)
    ∧ (¬ (out 0).value < (inp 0).value →
        ∃ r, copySparse out inp = some r ∧ r 0 = out 0 ∧
          ∀ k, k < (tr (inp 0).value + 1).toNat → r (k + 1) = inp (k + 1)) := by
  constructor
  · intro h
    unfold copySparse
    rw [if_pos h]
  · intro h
    refine ⟨(List.range (tr (inp 0).value + 1).toNat).foldl
      (fun o k => setSlot o (k + 1) (inp (k + 1))) out, ?_, ?_, ?_⟩
    · unfold copySparse
      rw [if_neg h]
    · rw [copyFold_at, if_neg (by omega)]
    · intro k hk
      rw [copyFold_at, if_pos (by omega)]

/-- C5 witness: the amended statement applied to the concrete buffers of the
counterexample, where the capacity 4 admits the single entry. -/
theorem copySparse_amended_witness :
    ∃ r, copySparse cOut cIn = some r ∧ r 0 = cOut 0 ∧
      ∀ k, k < (tr ((cIn 0).value) + 1).toNat → r (k + 1) = cIn (k + 1) :=
  (copySparse_amended cOut cIn).2 (by with_unfolding_all decide)

/-- C6: the dimension checks diverge from the claim in both operations.
multiplySparse rejects a 2-by-3 times 3-by-5 product (the shapes are
compatible, `a.cols = b.rows = 3`, but line 78 compares `a.rows` with
`b.cols`), and addSparse accepts a 2-by-3 plus 2-by-5 sum (the column counts
differ, but the `&&` of line 173 only fails when both dimensions differ). -/
theorem dimensionCheck_eval :
    (m6a 0).j = (m6b 0).i
    ∧ (multiplySparse outZ m6a m6b).isSome = false
    ∧ (m6a 0).i = (b6 0).i
    ∧ (m6a 0).j ≠ (b6 0).j
    ∧ (addSparse outZ m6a b6).isSome = true := by with_unfolding_all decide

/-- C7: generateSparse on the dense `[[5,7]]` with a destination whose
declared capacity is 1 succeeds and stores 2 entries: line 33 of sparse.c
overwrites the caller's capacity field with `m*n` before the capacity check
of line 56 reads it, so the check never fails (and multiplySparse performs
no capacity check at all). -/
theorem generateSparse_capacity_eval :
    (cap1 0).value = 1
    ∧ (generateSparse cap1 d3 1 2).isSome = true
    ∧ (((generateSparse cap1 d3 1 2).getD cap1) 0).value = 2 := by with_unfolding_all decide

/-- C8: fullSparse applied with exactly the stored dimensions fails: for the
2-by-3 matrix `m6a` (header rows 2, cols 3), the call with `rows = 2`,
`cols = 3` returns failure because line 270 of sparse.c compares the passed
rows against the stored cols and the passed cols against the stored rows. -/
theorem fullSparse_dimCheck_eval :
    (m6a 0).i = 2 ∧ (m6a 0).j = 3
    ∧ (fullSparse denseZ 2 3 m6a).isSome = false := by with_unfolding_all decide

/-- C9: for every matrix with a non-negative stored count, transposing twice
restores the buffer exactly (header, entries, and even the untouched slots),
and one transposition swaps rows and cols in the header and swaps the row
and column of every stored entry. -/
theorem transposeSparse_involution (M : Buf) (h : 0 ≤ tr (M 0).value) :
    transposeSparse (transposeSparse M) = M
    ∧ ((transposeSparse M) 0).i = (M 0).j
    ∧ ((transposeSparse M) 0).j = (M 0).i
    ∧ ∀ k, k < trN (M 0).value → transposeSparse M (k + 1) = swapE (M (k + 1)) := by
  have h0 : 0 < (tr (M 0).value + 1).toNat := by omega
  have hT0 : transposeSparse M 0 = swapE (M 0) := by
    rw [transposeSparse_apply_at, if_pos h0]
  refine ⟨?_, ?_, ?_, ?_⟩
  · funext k
    rw [transposeSparse_apply_at (transposeSparse M) k, transposeSparse_value0,
      transposeSparse_apply_at M k]
    by_cases hk : k < (tr (M 0).value + 1).toNat
    · rw [if_pos hk, if_pos hk]
      exact swapE_swapE (M k)
    · rw [if_neg hk, if_neg hk]
  · rw [hT0]
    rfl
  · rw [hT0]
    rfl
  · intro k hk
    have hk1 : k + 1 < (tr (M 0).value + 1).toNat := by
      unfold trN at hk
      omega
    rw [transposeSparse_apply_at, if_pos hk1]

/-- C9 witness: the involution and swap statement at the concrete 2-by-3
matrix `transW` with one stored entry. -/
theorem transposeSparse_involution_witness :
    0 ≤ tr ((transW 0).value)
    ∧ (transposeSparse (transposeSparse transW) = transW
      ∧ ((transposeSparse transW) 0).i = (transW 0).j
      ∧ ((transposeSparse transW) 0).j = (transW 0).i
      ∧ ∀ k, k < trN (transW 0).value →
          transposeSparse transW (k + 1) = swapE (transW (k + 1))) :=
  ⟨by with_unfolding_all decide, transposeSparse_involution transW (by with_unfolding_all decide)⟩

/-- C10: whenever multiplySparse succeeds, the rows and cols fields of the
output header are exactly what the destination buffer held before the call:
the function writes only entry slots and the header's value field. -/
theorem multiplySparse_frame (out in1 in2 r : Buf)
    (h : multiplySparse out in1 in2 = some r) :
    (r 0).i = (out 0).i ∧ (r 0).j = (out 0).j := by
  unfold multiplySparse at h
  by_cases hd : (in1 0).i ≠ (in2 0).j
  · rw [if_pos hd] at h
    exact absurd h (by simp)
  · rw [if_neg hd] at h
    have hr := Option.some.inj h
    have h0 : (List.foldl (mulOuter in1 in2) (out, (0 : Nat))
        (List.range (trN (in1 0).value))).1 0 = out 0 :=
      foldl_mulOuter_fst_zero in1 in2 _ (out, 0)
    rw [← hr]
    unfold setVal
    rw [if_pos rfl, h0]
    exact ⟨rfl, rfl⟩

/-- C10 witness: the frame property at a concrete succeeding multiplication,
a 1-by-1 product written into a buffer whose header reads `(9,9,4)`. -/
theorem multiplySparse_frame_witness :
    ∃ r, multiplySparse cOut tinyA tinyA = some r
      ∧ (r 0).i = (cOut 0).i ∧ (r 0).j = (cOut 0).j := by
  have h : (multiplySparse cOut tinyA tinyA).isSome = true := by with_unfolding_all decide
  refine ⟨(multiplySparse cOut tinyA tinyA).get h, (Option.some_get h).symm, ?_, ?_⟩
  · exact (multiplySparse_frame cOut tinyA tinyA _ (Option.some_get h).symm).1
  · exact (multiplySparse_frame cOut tinyA tinyA _ (Option.some_get h).symm).2
